import Mathlib

/-!
Shallow embedding of the CMS content-loading pipeline of this repository:
the retrying HTTP fetch primitive, the posts loader (count probe, ceil
batch math, parallel group fetching, per-item transform/validate/commit),
the post transformer, and the media loader with its sequential pagination.

Machine reals/dates are kept abstract: a JS Date value is represented by
the string it was parsed from, and wall-clock waiting is represented by
the accumulated number of milliseconds passed to setTimeout.
-/

namespace Blog

/-! ## Field values and records

The transformer builds a JS object whose values are strings, numbers,
booleans, Date objects, string arrays, or undefined; undefined-valued
keys are deleted before validation.  A record is the key/value list in
insertion order, as JS object keys of a literal are ordered. -/

inductive FieldValue where
  | str (s : String)
  | num (n : Nat)
  | bool (b : Bool)
  | date (iso : String)
  | strList (l : List String)
  | undef
  deriving DecidableEq, Repr

abbrev Record := List (String × FieldValue)

/-- JS `a || b` for an optional string `a`: `null`/`undefined` and the
empty string are falsy. -/
def jsStrOr (a : Option String) (b : String) : String :=
  match a with
  | some s => if s = "" then b else s
  | none => b

/-! ## Remote CMS data model

Only the fields the loader and transformer actually read are embedded
(`id`, `authorId`, `createdAt`, ... are never touched by the pipeline). -/

structure CMSCategory where
  name : String
  deriving DecidableEq, Repr

structure CMSTag where
  name : String
  deriving DecidableEq, Repr

structure CMSPostTag where
  tag : CMSTag
  deriving DecidableEq, Repr

structure CMSPost where
  title : String
  slug : String
  subtitle : Option String
  content : String
  excerpt : Option String
  ogImage : Option String
  draft : Bool
  toc : Bool
  share : Bool
  giscus : Bool
  search : Bool
  radio : Bool
  video : Bool
  platform : Option String
  minutesRead : Option Nat
  pubDate : String
  lastModDate : Option String
  category : Option CMSCategory
  postTags : List CMSPostTag
  categoryPath : Option String
  categoryNamePath : Option String
  deriving DecidableEq, Repr

/-! ## Content transformer (transformPostToEntry) -/

/-- `post.ogImage || true`: a truthy remote string is kept, a null or
empty one is replaced by the boolean literal `true`. -/
def jsOgImage (o : Option String) : FieldValue :=
  match o with
  | some s => if s = "" then FieldValue.bool true else FieldValue.str s
  | none => FieldValue.bool true

/-- `post.minutesRead || undefined`: null stays undefined and the falsy
number 0 also becomes undefined. -/
def jsMinutesRead (o : Option Nat) : FieldValue :=
  match o with
  | some n => if n = 0 then FieldValue.undef else FieldValue.num n
  | none => FieldValue.undef

/-- `post.lastModDate ? new Date(post.lastModDate) : undefined`. -/
def jsLastModDate (o : Option String) : FieldValue :=
  match o with
  | some d => if d = "" then FieldValue.undef else FieldValue.date d
  | none => FieldValue.undef

/-- JS `String.prototype.split` with a one-character separator, on the
character list: the (never empty) list of segments between separator
occurrences.  `"".split(sep)` is `[""]` and a trailing separator yields
a trailing empty segment, as in JS. -/
def splitChar (sep : Char) : List Char → List (List Char)
  | [] => [[]]
  | c :: rest =>
    if c = sep then [] :: splitChar sep rest
    else
      match splitChar sep rest with
      | seg :: segs => (c :: seg) :: segs
      | [] => [[c]]

/-- `slug.split('/')` as a list of strings. -/
def jsSplitSlash (s : String) : List String :=
  (splitChar '/' s.data).map String.mk

/-- `post.slug.includes('/') ? post.slug.split('/').pop() || post.slug
: post.slug`: `pop()` yields the last segment; when that segment is the
empty string (slug ending in a slash) the `||` falls back to the whole
slug. -/
def actualSlugOf (slug : String) : String :=
  if slug.data.contains '/' then
    match (jsSplitSlash slug).getLast? with
    | some s => if s = "" then slug else s
    | none => slug
  else slug

structure TransformedEntry where
  id : String
  data : Record
  body : String
  deriving DecidableEq, Repr

/-- Embedding of `transformPostToEntry` from the posts loader. -/
def transformPostToEntry (post : CMSPost) : TransformedEntry :=
  let tags := post.postTags.map (fun pt => pt.tag.name)
  let categoryPath := jsStrOr post.categoryPath ""
  let actualSlug := actualSlugOf post.slug
  let id := if categoryPath = "" then actualSlug
            else categoryPath ++ "/" ++ actualSlug
  let category := jsStrOr post.categoryNamePath
    (jsStrOr (post.category.map (fun c => c.name)) "")
  let data : Record :=
    [("title", FieldValue.str post.title),
     ("subtitle", FieldValue.str (jsStrOr post.subtitle "")),
     ("description", FieldValue.str (jsStrOr post.excerpt "")),
     ("pubDate", FieldValue.date post.pubDate),
     ("lastModDate", jsLastModDate post.lastModDate),
     ("minutesRead", jsMinutesRead post.minutesRead),
     ("radio", FieldValue.bool post.radio),
     ("video", FieldValue.bool post.video),
     ("platform", FieldValue.str (jsStrOr post.platform "")),
     ("ogImage", jsOgImage post.ogImage),
     ("toc", FieldValue.bool post.toc),
     ("share", FieldValue.bool post.share),
     ("giscus", FieldValue.bool post.giscus),
     ("search", FieldValue.bool post.search),
     ("draft", FieldValue.bool post.draft),
     ("category", FieldValue.str category),
     ("tags", FieldValue.strList tags)]
  { id := id
    data := data.filter (fun kv => kv.2 ≠ FieldValue.undef)
    body := post.content }

/-! ## Fetch with retry (fetchWithRetry)

One attempt of `fetch` either produces a `Response` (of any HTTP status)
or throws (network error, timeout-triggered abort).  The transport is a
function from the attempt number to that outcome; the response type is
abstract. -/

deriving instance DecidableEq for Except

inductive AttemptOut (α : Type) where
  | resp (r : α)
  | err (e : String)
  deriving DecidableEq, Repr

structure RetryResult (α : Type) where
  /-- The returned response, or the error finally thrown. -/
  outcome : Except String α
  /-- Number of `fetch` attempts actually made. -/
  attempts : Nat
  /-- Total milliseconds handed to `setTimeout` between attempts. -/
  totalWait : Nat
  deriving DecidableEq, Repr

/-- The `for (attempt = 1; attempt <= maxRetries; attempt++)` loop body of
`fetchWithRetry`, entered at attempt number `attempt` with the last
caught error and the wait accumulated so far. -/
def fetchRetryGo {α : Type} (transport : Nat → AttemptOut α)
    (maxRetries retryDelay attempt : Nat) (lastError : Option String)
    (waitAcc : Nat) : RetryResult α :=
  if attempt ≤ maxRetries then
    match transport attempt with
    | AttemptOut.resp r =>
        { outcome := Except.ok r, attempts := attempt, totalWait := waitAcc }
    | AttemptOut.err e =>
        let waitAcc' := if attempt < maxRetries
          then waitAcc + retryDelay * attempt else waitAcc
        fetchRetryGo transport maxRetries retryDelay (attempt + 1) (some e)
          waitAcc'
  else
    { outcome := Except.error
        ((lastError).getD "Fetch failed after retries")
      attempts := attempt - 1
      totalWait := waitAcc }
  termination_by maxRetries + 1 - attempt
  decreasing_by omega

/-- Embedding of `fetchWithRetry` (both copies in the posts and the media
loader share this retry logic; they differ only in the per-attempt
timeout, which is part of what makes one transport attempt fail). -/
def fetchWithRetry {α : Type} (transport : Nat → AttemptOut α)
    (maxRetries : Nat := 3) (retryDelay : Nat := 1000) : RetryResult α :=
  fetchRetryGo transport maxRetries retryDelay 1 none 0

/-! ## Posts loader (cmsLoader)

The loader sees each call to `fetchWithRetry` through its result: either
a response with a status and a parsed JSON body, or the error thrown
after the retry budget is exhausted. -/

inductive HttpOutcome (β : Type) where
  /-- A response was received: its HTTP status and parsed JSON body. -/
  | resp (status : Nat) (body : β)
  /-- `fetchWithRetry` threw after exhausting its retries. -/
  | failed (e : String)
  deriving DecidableEq, Repr

/-- JS `Response.ok`: status in the inclusive range 200-299. -/
def isOkStatus (status : Nat) : Bool :=
  decide (200 ≤ status) && decide (status ≤ 299)

/-- Response envelope of `/api/public/posts`. -/
structure PostsPage where
  posts : List CMSPost
  total : Nat
  deriving DecidableEq, Repr

/-- The remote posts API as the loader can observe it: the count probe
(`limit=1&offset=0`) and the batch requests, keyed by their offset. -/
structure PostsEnv where
  countFetch : HttpOutcome PostsPage
  batchFetch : Nat → HttpOutcome PostsPage

/-- `Math.ceil(total / batchSize)` on naturals (`batchSize > 0`). -/
def cmsTotalBatches (total batchSize : Nat) : Nat :=
  (total + batchSize - 1) / batchSize

/-- Fixed bound on concurrent batch requests. -/
def parallelRequests : Nat := 4

/-- The outer `for (groupStart = 0; groupStart < totalBatches;
groupStart += parallelRequests)` loop, listing each group's batch
indices `groupStart ..< min (groupStart + parallelRequests)
totalBatches`. -/
def batchGroupsGo (totalBatches groupStart : Nat) : List (List Nat) :=
  if groupStart < totalBatches then
    List.range' groupStart
        (min (groupStart + parallelRequests) totalBatches - groupStart)
      :: batchGroupsGo totalBatches (groupStart + parallelRequests)
  else []
  termination_by totalBatches - groupStart
  decreasing_by simp [parallelRequests]; omega

def batchGroups (totalBatches : Nat) : List (List Nat) :=
  batchGroupsGo totalBatches 0

/-- One batch promise: request the batch at offset
`batchIndex * batchSize`; a non-2xx response makes the promise reject
with an HTTP error naming the status, otherwise it resolves with the
envelope's `posts`. -/
def batchValue (env : PostsEnv) (batchSize batchIndex : Nat) :
    Except String (List CMSPost) :=
  match env.batchFetch (batchIndex * batchSize) with
  | HttpOutcome.failed e => Except.error e
  | HttpOutcome.resp st body =>
      if isOkStatus st then Except.ok body.posts
      else Except.error ("HTTP " ++ toString st ++ ": Failed to fetch posts")

/-- The order in which the promises of one group settle: the group's
indices sorted by the completion time `sched` assigns to each batch. -/
def settleOrder (sched : Nat → Nat) (indices : List Nat) : List Nat :=
  indices.mergeSort (fun i j => decide (sched i ≤ sched j))

/-- Resolved values gathered in index order (what `Promise.all` resolves
with once every member has settled). -/
def collectResults {α : Type} (value : Nat → Except String α) :
    List Nat → Except String (List α)
  | [] => Except.ok []
  | i :: is =>
    match value i with
    | Except.error e => Except.error e
    | Except.ok a =>
      match collectResults value is with
      | Except.error e => Except.error e
      | Except.ok rest => Except.ok (a :: rest)

/-- `Promise.all` over one group: if any member rejects, the whole group
rejects with the reason of the first member to settle with a rejection
(per the completion schedule); otherwise it resolves with the values in
batch-index order. -/
def promiseAll {α : Type} (value : Nat → Except String α)
    (sched : Nat → Nat) (indices : List Nat) : Except String (List α) :=
  match (settleOrder sched indices).findSome?
      (fun i => match value i with
        | Except.error e => some e
        | Except.ok _ => none) with
  | some e => Except.error e
  | none => collectResults value indices

/-- The group loop: await each group in turn and push its batch results,
in batch-index order, onto the aggregate list; a rejected group aborts
the whole fetch. -/
def runGroups (value : Nat → Except String (List CMSPost))
    (sched : Nat → Nat) : List (List Nat) → Except String (List CMSPost)
  | [] => Except.ok []
  | g :: gs =>
    match promiseAll value sched g with
    | Except.error e => Except.error e
    | Except.ok results =>
      match runGroups value sched gs with
      | Except.error e => Except.error e
      | Except.ok rest => Except.ok (results.flatten ++ rest)

/-- The fetch stage of the posts loader: count probe, `totalBatches`
computation, then the grouped parallel batch fetch. -/
def cmsFetchStage (env : PostsEnv) (sched : Nat → Nat) (batchSize : Nat) :
    Except String (List CMSPost) :=
  match env.countFetch with
  | HttpOutcome.failed e => Except.error e
  | HttpOutcome.resp st body =>
    if isOkStatus st then
      runGroups (batchValue env batchSize) sched
        (batchGroups (cmsTotalBatches body.total batchSize))
    else
      Except.error ("Failed to get post count: HTTP " ++ toString st)

/-! ## Processing stage and the content store -/

/-- One committed posts entry: `store.set({id, data, body, rendered})`. -/
structure StoreEntry where
  id : String
  data : Record
  body : String
  rendered : String
  deriving DecidableEq, Repr

/-- The store is a JS `Map`: `set` on an existing id overwrites in place
(keeping the original insertion position), otherwise appends. -/
def storeSet {β : Type} (store : List (String × β)) (id : String)
    (v : β) : List (String × β) :=
  if store.any (fun kv => kv.1 = id) then
    store.map (fun kv => if kv.1 = id then (kv.1, v) else kv)
  else store ++ [(id, v)]

def applyCommits {β : Type} (store : List (String × β)) :
    List (String × β) → List (String × β)
  | [] => store
  | c :: cs => applyCommits (storeSet store c.1 c.2) cs

/-- `store.clear()`. -/
def storeClear {β : Type} (_ : List (String × β)) : List (String × β) :=
  []

/-- Processing of one fetched post: transform, validate against the
schema (`parseData`), render the markdown body; any failure is turned
into the logged message naming the post. -/
def processPost (parseData : String → Record → Except String Record)
    (render : String → Except String String) (post : CMSPost) :
    Except String StoreEntry :=
  let entry := transformPostToEntry post
  match parseData entry.id entry.data with
  | Except.error e =>
      Except.error ("Error processing post " ++ post.slug ++ ": " ++ e)
  | Except.ok parsed =>
    match render entry.body with
    | Except.error e =>
        Except.error ("Error processing post " ++ post.slug ++ ": " ++
          e)
    | Except.ok rendered =>
        Except.ok { id := entry.id, data := parsed, body := entry.body,
                    rendered := rendered }

/-- The `for (const post of allPosts)` loop: commits in order, a failed
item only adds a log line and is skipped. -/
def processPosts (parseData : String → Record → Except String Record)
    (render : String → Except String String) :
    List CMSPost → List (String × StoreEntry) × List String
  | [] => ([], [])
  | p :: ps =>
    let rest := processPosts parseData render ps
    match processPost parseData render p with
    | Except.ok entry => ((entry.id, entry) :: rest.1, rest.2)
    | Except.error msg => (rest.1, msg :: rest.2)

structure LoadResult (β : Type) where
  store : List (String × β)
  errorLogs : List String
  /-- `Except.ok n` when `load` returned normally having committed `n`
  entries; `Except.error e` when it threw `e`. -/
  result : Except String Nat
  deriving Repr

/-- Embedding of the posts loader's `load`: clear the store, run the
fetch stage, process every fetched post, commit the survivors; a fetch
stage failure is logged by the outer catch and rethrown. -/
def cmsLoad (env : PostsEnv) (initStore : List (String × StoreEntry))
    (parseData : String → Record → Except String Record)
    (render : String → Except String String) (sched : Nat → Nat)
    (batchSize : Nat := 200) : LoadResult StoreEntry :=
  let store := storeClear initStore
  match cmsFetchStage env sched batchSize with
  | Except.error e =>
      { store := store
        errorLogs := ["CMS loader error: " ++ e]
        result := Except.error e }
  | Except.ok allPosts =>
      let processed := processPosts parseData render allPosts
      { store := applyCommits store processed.1
        errorLogs := processed.2
        result := Except.ok processed.1.length }

/-! ## Media loader (mediaLoader) -/

structure CMSMedia where
  id : String
  url : String
  name : String
  deriving DecidableEq, Repr

/-- Response envelope of `/api/public/media`. -/
structure MediaPage where
  photos : List CMSMedia
  total : Nat
  deriving DecidableEq, Repr

structure MediaEnv where
  apiBaseUrl : String
  /-- Result of `fetchWithRetry` on the media URL with the given offset. -/
  fetchAt : Nat → HttpOutcome MediaPage

def mediaUrlAt (apiBaseUrl : String) (batchSize offset : Nat) : String :=
  apiBaseUrl ++ "/api/public/media?limit=" ++ toString batchSize ++
    "&offset=" ++ toString offset ++ "&type=image"

/-- `item.name.replace(/\.[^/.]+$/, '')`: drop a trailing dot-extension
(one or more characters none of which is a slash or a dot) when present. -/
def stripExt (s : String) : String :=
  let rev := s.data.reverse
  let keep := fun c => decide (c ≠ '.') && decide (c ≠ '/')
  match rev.dropWhile keep with
  | '.' :: before =>
      if (rev.takeWhile keep).isEmpty then s
      else String.mk before.reverse
  | _ => s

/-- The media entry built for one item: `{id: item.url, data: {id:
item.url, desc: item.name minus extension}}`. -/
def mediaEntry (item : CMSMedia) : String × Record :=
  (item.url,
   [("id", FieldValue.str item.url),
    ("desc", FieldValue.str (stripExt item.name))])

/-- The per-item media loop: validate and commit, logging and skipping
failed items. -/
def processMediaItems (parseData : String → Record → Except String Record) :
    List CMSMedia → List (String × Record) × List String
  | [] => ([], [])
  | item :: items =>
    let rest := processMediaItems parseData items
    let entry := mediaEntry item
    match parseData entry.1 entry.2 with
    | Except.ok parsed => ((entry.1, parsed) :: rest.1, rest.2)
    | Except.error e =>
        (rest.1,
         ("Error processing media " ++ item.id ++ ": " ++ e)
           :: rest.2)

/-- The `while (offset < data.total)` pagination loop of the media
loader.  A thrown transport failure propagates (aborting the load with
the store as committed so far); a received non-2xx response is silently
skipped and the loop moves to the next offset. -/
def mediaPaginateGo (env : MediaEnv)
    (parseData : String → Record → Except String Record)
    (batchSize : Nat) (hbs : 0 < batchSize) (total offset : Nat)
    (store : List (String × Record)) (logs : List String)
    (fetched : Nat) : LoadResult Record :=
  if _hlt : offset < total then
    match env.fetchAt offset with
    | HttpOutcome.failed e =>
        { store := store, errorLogs := logs, result := Except.error e }
    | HttpOutcome.resp st body =>
      if isOkStatus st then
        let processed := processMediaItems parseData body.photos
        mediaPaginateGo env parseData batchSize hbs total
          (offset + batchSize) (applyCommits store processed.1)
          (logs ++ processed.2) (fetched + processed.1.length)
      else
        mediaPaginateGo env parseData batchSize hbs total
          (offset + batchSize) store logs fetched
  else
    { store := store, errorLogs := logs, result := Except.ok fetched }
  termination_by total - offset
  decreasing_by all_goals omega

/-- The body of the media loader's `load` up to the outer catch: clear,
fetch the first page (its transport failure is wrapped with the URL),
process it, then paginate only when `total > batchSize`. -/
def mediaLoadCore (env : MediaEnv)
    (initStore : List (String × Record))
    (parseData : String → Record → Except String Record)
    (batchSize : Nat) (hbs : 0 < batchSize) : LoadResult Record :=
  let store := storeClear initStore
  let mediaUrl := mediaUrlAt env.apiBaseUrl batchSize 0
  match env.fetchAt 0 with
  | HttpOutcome.failed e =>
      { store := store
        errorLogs := ["Fetch error: " ++ e]
        result := Except.error ("Failed to fetch media from " ++ mediaUrl
          ++ ". Error: " ++ e) }
  | HttpOutcome.resp st body =>
    if isOkStatus st then
      let processed := processMediaItems parseData body.photos
      let store1 := applyCommits store processed.1
      if batchSize < body.total then
        mediaPaginateGo env parseData batchSize hbs body.total batchSize
          store1 processed.2 processed.1.length
      else
        { store := store1, errorLogs := processed.2,
          result := Except.ok processed.1.length }
    else
      { store := store
        errorLogs := []
        result := Except.error ("HTTP " ++ toString st ++
          ": Failed to fetch media from " ++ mediaUrl) }

/-- The media loader's `load` including the outer catch, which logs the
error and rethrows. -/
def mediaLoad (env : MediaEnv) (initStore : List (String × Record))
    (parseData : String → Record → Except String Record)
    (batchSize : Nat) (hbs : 0 < batchSize) : LoadResult Record :=
  match mediaLoadCore env initStore parseData batchSize hbs with
  | { store := s, errorLogs := logs, result := Except.error e } =>
      { store := s
        errorLogs := logs ++ ["CMS media loader error: " ++ e]
        result := Except.error e }
  | ok => ok

/-! ## Spec-side definitions for comparison

These two follow the specification's words, not the source, and exist
only to be compared with the source-derived transformer. -/

/-- Following the spec's words: the last slash-separated segment of the
remote slug. -/
def specActualSlug (slug : String) : String :=
  (jsSplitSlash slug).getLastD ""

/-- Following the spec's words: `categoryPath/actualSlug`, or just the
actual slug when the category path is empty. -/
def specPostId (post : CMSPost) : String :=
  let categoryPath := jsStrOr post.categoryPath ""
  if categoryPath = "" then specActualSlug post.slug
  else categoryPath ++ "/" ++ specActualSlug post.slug

/-! ## Concrete fixtures used by witnesses and counterexamples -/

def basePost : CMSPost :=
  { title := "T", slug := "post", subtitle := none, content := "body"
    excerpt := none, ogImage := none, draft := false, toc := true
    share := true, giscus := true, search := true, radio := false
    video := false, platform := none, minutesRead := none
    pubDate := "2024-01-01T00:00:00.000Z", lastModDate := none
    category := none, postTags := [], categoryPath := none
    categoryNamePath := none }

def hooksPost : CMSPost :=
  { basePost with slug := "frontend/react/hooks-intro"
                  categoryPath := some "frontend/react" }

/-- A slug ending in a slash: its last slash-separated segment is empty. -/
def slashPost : CMSPost :=
  { basePost with slug := "a/" }

/-- A schedule in which later-indexed batches complete first. -/
def revSched : Nat → Nat := fun i => 1000 - i

/-- Posts environment with 5 posts served in batches of 2. -/
def wPostsEnv : PostsEnv :=
  { countFetch := HttpOutcome.resp 200 { posts := [basePost], total := 5 }
    batchFetch := fun offset =>
      HttpOutcome.resp 200
        { posts := [{ basePost with slug := "post-" ++ toString offset }]
          total := 5 } }

/-- A transport whose every attempt yields an HTTP 500 response (the
response is represented by its status). -/
def transport500 : Nat → AttemptOut Nat := fun _ => AttemptOut.resp 500

/-- A transport failing transiently on attempts 1 and 2 and producing a
response on attempt 3. -/
def transportFlaky : Nat → AttemptOut Nat := fun i =>
  if i ≤ 2 then AttemptOut.err "ECONNRESET" else AttemptOut.resp 200

/-- Posts environment whose count probe exhausts its retries. -/
def failPostsEnv : PostsEnv :=
  { countFetch := HttpOutcome.failed "ECONNREFUSED"
    batchFetch := fun _ => HttpOutcome.failed "ECONNREFUSED" }

def mediaItemA : CMSMedia :=
  { id := "m1", url := "/img/a.jpg", name := "a.jpg" }

/-- Media environment: first page OK with one item and total 2; the
second page's fetch exhausts its retries.  With batch size 1 the
pagination loop runs and throws after the first page was committed. -/
def mediaFailPage2Env : MediaEnv :=
  { apiBaseUrl := "https://cms.example.com"
    fetchAt := fun offset =>
      if offset = 0 then
        HttpOutcome.resp 200 { photos := [mediaItemA], total := 2 }
      else HttpOutcome.failed "network error" }

/-- Media environment: first page OK with one item and total 2; the
second page comes back as HTTP 500. -/
def media500Page2Env : MediaEnv :=
  { apiBaseUrl := "https://cms.example.com"
    fetchAt := fun offset =>
      if offset = 0 then
        HttpOutcome.resp 200 { photos := [mediaItemA], total := 2 }
      else HttpOutcome.resp 500 { photos := [], total := 2 } }

/-- A schema validator that accepts everything. -/
def acceptAll : String → Record → Except String Record :=
  fun _ d => Except.ok d

/-- A markdown renderer that always succeeds. -/
def renderOk : String → Except String String :=
  fun b => Except.ok b

def goodPostA : CMSPost := { basePost with slug := "good-a" }

def goodPostB : CMSPost := { basePost with slug := "good-b" }

def badPost : CMSPost := { basePost with slug := "bad-post" }

/-- A schema validator rejecting exactly the entry with id "bad-post". -/
def rejectBad : String → Record → Except String Record :=
  fun id d => if id = "bad-post" then Except.error "invalid field" else
    Except.ok d

/-- Posts environment whose count probe comes back as HTTP 500. -/
def probe500Env : PostsEnv :=
  { countFetch := HttpOutcome.resp 500 { posts := [], total := 0 }
    batchFetch := fun _ => HttpOutcome.failed "unused" }

/-- Posts environment serving the three C6 fixture posts in one batch. -/
def wC6Env : PostsEnv :=
  { countFetch := HttpOutcome.resp 200 { posts := [goodPostA], total := 3 }
    batchFetch := fun _ =>
      HttpOutcome.resp 200
        { posts := [goodPostA, badPost, goodPostB], total := 3 } }

/-! ## Lemmas about the retry loop -/

/-- A response received on the attempt the loop is entered at is
returned as-is, with no further attempt and no added wait. -/
lemma fetchRetryGo_resp {α : Type} {transport : Nat → AttemptOut α}
    {r : α} {maxRetries retryDelay attempt : Nat} {lastError : Option String}
    {waitAcc : Nat} (hle : attempt ≤ maxRetries)
    (hr : transport attempt = AttemptOut.resp r) :
    fetchRetryGo transport maxRetries retryDelay attempt lastError waitAcc =
      { outcome := Except.ok r, attempts := attempt, totalWait := waitAcc } := by
  rw [fetchRetryGo]
  simp [hle, hr]

/-- Entering the retry loop at attempt `a`, with the next `K` attempts
failing and attempt `a + K` producing a response, the loop returns that
response on attempt `a + K` having waited `retryDelay * i` after each
failed attempt `i`. -/
lemma fetchRetryGo_eventually_ok {α : Type} {transport : Nat → AttemptOut α}
    {r : α} {maxRetries retryDelay : Nat} :
    ∀ (K a : Nat) (lastError : Option String) (waitAcc : Nat),
      a + K ≤ maxRetries →
      (∀ i, a ≤ i → i < a + K → ∃ e, transport i = AttemptOut.err e) →
      transport (a + K) = AttemptOut.resp r →
      fetchRetryGo transport maxRetries retryDelay a lastError waitAcc =
        { outcome := Except.ok r, attempts := a + K,
          totalWait := waitAcc +
            retryDelay * ∑ i ∈ Finset.Ico a (a + K), i } := by
  intro K
  induction K with
  | zero =>
    intro a lastError waitAcc hle _hfail hresp
    rw [fetchRetryGo_resp (by omega) (by simpa using hresp)]
    simp
  | succ K ih =>
    intro a lastError waitAcc hle hfail hresp
    obtain ⟨e, he⟩ := hfail a (le_refl a) (by omega)
    rw [fetchRetryGo]
    have ha : a ≤ maxRetries := by omega
    have halt : a < maxRetries := by omega
    simp only [ha, if_pos, he, halt, if_true]
    rw [ih (a + 1) (some e) (waitAcc + retryDelay * a) (by omega)
      (fun i h1 h2 => hfail i (by omega) (by omega))
      (by rw [show a + 1 + K = a + (K + 1) by omega]; exact hresp)]
    have hsum : ∑ i ∈ Finset.Ico a (a + (K + 1)), i =
        a + ∑ i ∈ Finset.Ico (a + 1) (a + 1 + K), i := by
      rw [show a + (K + 1) = a + 1 + K by omega]
      rw [Finset.sum_eq_sum_Ico_succ_bot (by omega)]
    rw [hsum]
    simp only [RetryResult.mk.injEq]
    exact ⟨trivial, by omega, by ring⟩

/-! ## Lemmas about the batch plan and Promise.all -/

/-- Flattening the group plan started at `groupStart` lists every batch
index from `groupStart` up to `totalBatches`, in ascending order. -/
lemma batchGroupsGo_flatten (totalBatches : Nat) :
    ∀ n groupStart, totalBatches - groupStart = n →
      (batchGroupsGo totalBatches groupStart).flatten =
        List.range' groupStart (totalBatches - groupStart) := by
  intro n
  induction n using Nat.strong_induction_on with
  | _ n ih =>
    intro groupStart hn
    rw [batchGroupsGo]
    by_cases hlt : groupStart < totalBatches
    · simp only [hlt, if_pos, List.flatten_cons]
      rw [ih (totalBatches - (groupStart + parallelRequests))
        (by simp [parallelRequests]; omega) (groupStart + parallelRequests)
        rfl]
      rcases le_or_lt totalBatches (groupStart + parallelRequests) with h4 | h4
      · have hz : totalBatches - (groupStart + parallelRequests) = 0 := by
          omega
        have hmin : min (groupStart + parallelRequests) totalBatches =
            totalBatches := by omega
        simp [hz, hmin]
      · have hmin : min (groupStart + parallelRequests) totalBatches =
            groupStart + parallelRequests := by omega
        rw [hmin]
        have happ := List.range'_append groupStart parallelRequests
          (totalBatches - (groupStart + parallelRequests)) 1
        simp only [one_mul] at happ
        rw [show groupStart + parallelRequests - groupStart =
          parallelRequests by omega, happ]
        congr 1
        omega
    · simp only [hlt, if_neg, not_false_iff, List.flatten_nil]
      rw [show totalBatches - groupStart = 0 by omega]
      simp

/-- The group plan for `totalBatches` batches covers exactly the batch
indices `0, 1, ..., totalBatches - 1` in ascending order. -/
lemma batchGroups_flatten (totalBatches : Nat) :
    (batchGroups totalBatches).flatten = List.range totalBatches := by
  rw [batchGroups, batchGroupsGo_flatten totalBatches (totalBatches - 0) 0
    rfl]
  simp [List.range_eq_range']

lemma collectResults_ok {α : Type} {value : Nat → Except String α}
    {f : Nat → α} :
    ∀ {l : List Nat}, (∀ i ∈ l, value i = Except.ok (f i)) →
      collectResults value l = Except.ok (l.map f) := by
  intro l
  induction l with
  | nil => intro _; rfl
  | cons i is ih =>
    intro h
    rw [collectResults]
    rw [h i (by simp), ih (fun j hj => h j (by simp [hj]))]
    simp

lemma collectResults_isOk {α : Type} {value : Nat → Except String α} :
    ∀ {l : List Nat}, (∀ i ∈ l, ∃ a, value i = Except.ok a) →
      ∃ rs, collectResults value l = Except.ok rs := by
  intro l
  induction l with
  | nil => intro _; exact ⟨[], rfl⟩
  | cons i is ih =>
    intro h
    obtain ⟨a, ha⟩ := h i (by simp)
    obtain ⟨rs, hrs⟩ := ih (fun j hj => h j (by simp [hj]))
    exact ⟨a :: rs, by rw [collectResults, ha, hrs]⟩

lemma mem_settleOrder {sched : Nat → Nat} {l : List Nat} {i : Nat} :
    i ∈ settleOrder sched l ↔ i ∈ l :=
  (List.mergeSort_perm l _).mem_iff

/-- When every member of the group resolves, `Promise.all` resolves with
the values in batch-index order, whatever the completion schedule. -/
lemma promiseAll_ok {α : Type} {value : Nat → Except String α}
    {f : Nat → α} {sched : Nat → Nat} {l : List Nat}
    (h : ∀ i ∈ l, value i = Except.ok (f i)) :
    promiseAll value sched l = Except.ok (l.map f) := by
  rw [promiseAll]
  have hnone : (settleOrder sched l).findSome?
      (fun i => match value i with
        | Except.error e => some e
        | Except.ok _ => none) = none := by
    rw [List.findSome?_eq_none_iff]
    intro i hi
    rw [h i (mem_settleOrder.1 hi)]
  rw [hnone]
  exact collectResults_ok h

lemma promiseAll_isOk {α : Type} {value : Nat → Except String α}
    {sched : Nat → Nat} {l : List Nat}
    (h : ∀ i ∈ l, ∃ a, value i = Except.ok a) :
    ∃ rs, promiseAll value sched l = Except.ok rs := by
  rw [promiseAll]
  have hnone : (settleOrder sched l).findSome?
      (fun i => match value i with
        | Except.error e => some e
        | Except.ok _ => none) = none := by
    rw [List.findSome?_eq_none_iff]
    intro i hi
    obtain ⟨a, ha⟩ := h i (mem_settleOrder.1 hi)
    rw [ha]
  rw [hnone]
  exact collectResults_isOk h

/-- A resolved `Promise.all` value does not depend on the completion
schedule. -/
lemma promiseAll_ok_iff {α : Type} {value : Nat → Except String α}
    {s1 s2 : Nat → Nat} {l : List Nat} {rs : List α} :
    promiseAll value s1 l = Except.ok rs ↔
      promiseAll value s2 l = Except.ok rs := by
  suffices h : ∀ sa sb : Nat → Nat, promiseAll value sa l = Except.ok rs →
      promiseAll value sb l = Except.ok rs from ⟨h s1 s2, h s2 s1⟩
  intro sa sb hok
  rw [promiseAll] at hok ⊢
  cases hfs : (settleOrder sa l).findSome?
      (fun i => match value i with
        | Except.error e => some e
        | Except.ok _ => none) with
  | some e => rw [hfs] at hok; cases hok
  | none =>
    rw [hfs] at hok
    have hnone : (settleOrder sb l).findSome?
        (fun i => match value i with
          | Except.error e => some e
          | Except.ok _ => none) = none := by
      rw [List.findSome?_eq_none_iff]
      intro i hi
      exact (List.findSome?_eq_none_iff.1 hfs) i
        (mem_settleOrder.2 (mem_settleOrder.1 hi))
    rw [hnone]
    exact hok

/-- If exactly one member of the group rejects, `Promise.all` rejects
with that member's reason under every completion schedule. -/
lemma findSome?_unique {β : Type} {f : Nat → Option β} {x : Nat} {e : β} :
    ∀ {l : List Nat}, x ∈ l → f x = some e →
      (∀ y ∈ l, y ≠ x → f y = none) → l.findSome? f = some e := by
  intro l
  induction l with
  | nil => intro h; cases h
  | cons a as ih =>
    intro hx hfx hother
    rw [List.findSome?_cons]
    by_cases hax : a = x
    · subst hax; rw [hfx]
    · rw [hother a (by simp) hax]
      have hx' : x ∈ as := by
        cases List.mem_cons.1 hx with
        | inl h => exact absurd h.symm hax
        | inr h => exact h
      exact ih hx' hfx (fun y hy => hother y (by simp [hy]))

lemma promiseAll_single_error {α : Type} {value : Nat → Except String α}
    {sched : Nat → Nat} {l : List Nat} {j : Nat} {e : String}
    (hj : j ∈ l) (he : value j = Except.error e)
    (hok : ∀ i ∈ l, i ≠ j → ∃ a, value i = Except.ok a) :
    promiseAll value sched l = Except.error e := by
  rw [promiseAll]
  rw [findSome?_unique (mem_settleOrder.2 hj) (by rw [he])
    (fun y hy hne => by
      obtain ⟨a, ha⟩ := hok y (mem_settleOrder.1 hy) hne
      rw [ha])]

/-! ## Lemmas about the group loop -/

/-- When every batch of every group resolves, the group loop returns the
per-batch result lists concatenated in ascending batch-index order. -/
lemma runGroups_ok {value : Nat → Except String (List CMSPost)}
    {f : Nat → List CMSPost} {sched : Nat → Nat} :
    ∀ {gs : List (List Nat)},
      (∀ i ∈ gs.flatten, value i = Except.ok (f i)) →
      runGroups value sched gs = Except.ok ((gs.flatten.map f).flatten) := by
  intro gs
  induction gs with
  | nil => intro _; rfl
  | cons g rest ih =>
    intro h
    rw [runGroups]
    rw [promiseAll_ok (fun i hi => h i (by simp [hi]))]
    rw [ih (fun i hi => h i (by simp [hi]))]
    simp

/-- A resolved group-loop value does not depend on the completion
schedule. -/
lemma runGroups_ok_imp {value : Nat → Except String (List CMSPost)}
    {s1 s2 : Nat → Nat} :
    ∀ {gs : List (List Nat)} {r : List CMSPost},
      runGroups value s1 gs = Except.ok r →
      runGroups value s2 gs = Except.ok r := by
  intro gs
  induction gs with
  | nil => intro r h; exact h
  | cons g rest ih =>
    intro r h
    rw [runGroups] at h ⊢
    cases hpa : promiseAll value s1 g with
    | error e => rw [hpa] at h; cases h
    | ok rs =>
      rw [hpa] at h
      rw [(@promiseAll_ok_iff _ _ s1 s2 _ _).1 hpa]
      cases hrg : runGroups value s1 rest with
      | error e => rw [hrg] at h; cases h
      | ok tail => rw [hrg] at h; rw [ih hrg]; exact h

/-- If exactly one batch index in the whole plan rejects, the group loop
rejects with exactly that batch's reason, under every schedule. -/
lemma runGroups_single_error {value : Nat → Except String (List CMSPost)}
    {sched : Nat → Nat} {j : Nat} {e : String} :
    ∀ {gs : List (List Nat)}, j ∈ gs.flatten →
      value j = Except.error e →
      (∀ i ∈ gs.flatten, i ≠ j → ∃ a, value i = Except.ok a) →
      runGroups value sched gs = Except.error e := by
  intro gs
  induction gs with
  | nil => intro h; cases h
  | cons g rest ih =>
    intro hj he hok
    rw [runGroups]
    by_cases hjg : j ∈ g
    · rw [promiseAll_single_error hjg he
        (fun i hi hne => hok i (by simp [hi]) hne)]
    · rw [List.flatten_cons] at hj
      have hjrest : j ∈ rest.flatten := by
        rcases List.mem_append.1 hj with h | h
        · exact absurd h hjg
        · exact h
      obtain ⟨rs, hrs⟩ := @promiseAll_isOk _ _ sched _
        (fun i hi => hok i (by simp [hi])
          (fun hij => hjg (hij ▸ hi)))
      rw [hrs, ih hjrest he (fun i hi => hok i (by simp [hi]))]

/-! ## Lemmas about the processing stage -/

lemma processPosts_append
    {parseData : String → Record → Except String Record}
    {render : String → Except String String} :
    ∀ (l1 l2 : List CMSPost),
      processPosts parseData render (l1 ++ l2) =
        ((processPosts parseData render l1).1 ++
           (processPosts parseData render l2).1,
         (processPosts parseData render l1).2 ++
           (processPosts parseData render l2).2) := by
  intro l1 l2
  induction l1 with
  | nil => simp [processPosts]
  | cons p ps ih =>
    rw [List.cons_append, processPosts, processPosts, ih]
    cases processPost parseData render p <;> simp

/-- Posts that all process successfully commit one entry each and log
nothing. -/
lemma processPosts_all_ok
    {parseData : String → Record → Except String Record}
    {render : String → Except String String} :
    ∀ {posts : List CMSPost},
      (∀ p ∈ posts, ∃ entry,
        processPost parseData render p = Except.ok entry) →
      (processPosts parseData render posts).1.length = posts.length ∧
        (processPosts parseData render posts).2 = [] := by
  intro posts
  induction posts with
  | nil => intro _; exact ⟨rfl, rfl⟩
  | cons p ps ih =>
    intro h
    obtain ⟨entry, hentry⟩ := h p (by simp)
    obtain ⟨hlen, herr⟩ := ih (fun q hq => h q (by simp [hq]))
    rw [processPosts, hentry]
    exact ⟨by simp [hlen], herr⟩

/-- Every failure of `processPost` carries the message logged by the
loader, which names the failing post by its slug. -/
lemma processPost_error_shape
    {parseData : String → Record → Except String Record}
    {render : String → Except String String} {p : CMSPost}
    (h : ∀ entry, processPost parseData render p ≠ Except.ok entry) :
    ∃ e, processPost parseData render p =
      Except.error ("Error processing post " ++ p.slug ++ ": " ++ e) := by
  cases hpd : parseData (transformPostToEntry p).id
      (transformPostToEntry p).data with
  | error e => exact ⟨e, by simp only [processPost, hpd]⟩
  | ok parsed =>
    cases hr : render (transformPostToEntry p).body with
    | error e => exact ⟨e, by simp only [processPost, hpd, hr]⟩
    | ok rendered =>
      exfalso
      exact h { id := (transformPostToEntry p).id, data := parsed,
                body := (transformPostToEntry p).body,
                rendered := rendered }
        (by simp only [processPost, hpd, hr])

/-! ## The ceiling formula -/

/-- For a positive batch size, the loader's batch count is the exact
mathematical ceiling of `total / batchSize`. -/
lemma cmsTotalBatches_eq_ceil {total batchSize : Nat}
    (hb : 0 < batchSize) :
    (cmsTotalBatches total batchSize : ℤ) =
      ⌈(total : ℚ) / (batchSize : ℚ)⌉ := by
  have hq : (total + batchSize - 1) / batchSize * batchSize +
      (total + batchSize - 1) % batchSize = total + batchSize - 1 :=
    Nat.div_add_mod' _ _
  have hm := Nat.mod_lt (total + batchSize - 1) hb
  have h1 : total ≤ (total + batchSize - 1) / batchSize * batchSize := by
    omega
  have h2 : (total + batchSize - 1) / batchSize * batchSize <
      total + batchSize := by omega
  have hbQ : (0 : ℚ) < (batchSize : ℚ) := by exact_mod_cast hb
  have key1 : ((((total + batchSize - 1) / batchSize : ℕ) : ℤ) : ℚ) *
      batchSize < total + batchSize := by exact_mod_cast h2
  have key2 : (total : ℚ) ≤
      ((((total + batchSize - 1) / batchSize : ℕ) : ℤ) : ℚ) * batchSize := by
    exact_mod_cast h1
  symm
  rw [cmsTotalBatches, Int.ceil_eq_iff]
  constructor
  · rw [lt_div_iff₀ hbQ]
    linarith
  · rw [div_le_iff₀ hbQ]
    exact key2

/-! ## Claim theorems -/

/-- C1: for every total count and positive batch size, the posts loader
computes `totalBatches` as the exact ceiling of `total / batchSize`,
requests batch `i` at offset `i * batchSize`, and (when every batch
responds 2xx) the aggregate equals the concatenation of the per-batch
result lists in ascending batch-index order, for every completion
schedule `sched`. -/
theorem c1_batch_plan (env : PostsEnv) (sched : Nat → Nat)
    (batchSize total : Nat) (probe : PostsPage)
    (pagePosts : Nat → List CMSPost) (hb : 0 < batchSize)
    (hcount : env.countFetch = HttpOutcome.resp 200 probe)
    (htotal : probe.total = total)
    (hbatch : ∀ i, i < cmsTotalBatches total batchSize →
      env.batchFetch (i * batchSize) =
        HttpOutcome.resp 200 { posts := pagePosts i, total := total }) :
    (cmsTotalBatches total batchSize : ℤ) =
        ⌈(total : ℚ) / (batchSize : ℚ)⌉ ∧
      cmsFetchStage env sched batchSize =
        Except.ok
          (((List.range (cmsTotalBatches total batchSize)).map
            pagePosts).flatten) := by
  refine ⟨cmsTotalBatches_eq_ceil hb, ?_⟩
  have hval : ∀ i ∈ (batchGroups (cmsTotalBatches total batchSize)).flatten,
      batchValue env batchSize i = Except.ok (pagePosts i) := by
    intro i hi
    rw [batchGroups_flatten] at hi
    rw [batchValue, hbatch i (List.mem_range.1 hi)]
    rfl
  rw [cmsFetchStage, hcount]
  simp only [show isOkStatus 200 = true from rfl, if_true]
  rw [htotal, runGroups_ok hval, batchGroups_flatten]

/-- Witness for C1 at total 5 and batch size 2: three batches requested
at offsets 0, 2, 4 and concatenated in batch order even though the
schedule `revSched` completes later batches first. -/
theorem c1_batch_plan_witness :
    cmsFetchStage wPostsEnv revSched 2 =
      Except.ok [{ basePost with slug := "post-0" },
                 { basePost with slug := "post-2" },
                 { basePost with slug := "post-4" }] := by
  have h := c1_batch_plan wPostsEnv revSched 2 5
    { posts := [basePost], total := 5 }
    (fun i => [{ basePost with slug := "post-" ++ toString (i * 2) }])
    (by decide) rfl rfl
    (by intro i hi
        norm_num [cmsTotalBatches] at hi
        interval_cases i <;> rfl)
  rw [h.2]
  rfl

/-- C2: whenever an HTTP response is received, `fetchWithRetry` returns
it from that attempt with no further attempts and no inserted wait, even
for a non-2xx status: the response type is abstract here, so `r` may in
particular be an HTTP 500 response. -/
theorem c2_no_retry_on_http_response {α : Type}
    (transport : Nat → AttemptOut α) (r : α) (maxRetries retryDelay : Nat)
    (hmr : 1 ≤ maxRetries) (hr : transport 1 = AttemptOut.resp r) :
    fetchWithRetry transport maxRetries retryDelay =
      { outcome := Except.ok r, attempts := 1, totalWait := 0 } := by
  rw [fetchWithRetry, fetchRetryGo_resp hmr hr]

/-- Witness for C2: against a transport that always returns HTTP 500 the
call completes on the first attempt with no retry and no wait. -/
theorem c2_no_retry_on_http_response_witness :
    fetchWithRetry transport500 3 1000 =
      { outcome := Except.ok 500, attempts := 1, totalWait := 0 } :=
  c2_no_retry_on_http_response transport500 500 3 1000 (by decide) rfl

/-- C5: if the transport fails transiently on the first `K` attempts
(`K < maxRetries`) and produces a response on attempt `K + 1`,
`fetchWithRetry` returns that response and the total wait inserted
between attempts is the sum of `retryDelay * i` for `i` in `1..K`
(linear backoff). -/
theorem c5_linear_backoff {α : Type} (transport : Nat → AttemptOut α)
    (r : α) (K maxRetries retryDelay : Nat) (e : Nat → String)
    (hK : K < maxRetries)
    (hfail : ∀ i, 1 ≤ i → i ≤ K → transport i = AttemptOut.err (e i))
    (hsucc : transport (K + 1) = AttemptOut.resp r) :
    fetchWithRetry transport maxRetries retryDelay =
      { outcome := Except.ok r, attempts := K + 1,
        totalWait := ∑ i ∈ Finset.Icc 1 K, retryDelay * i } := by
  rw [fetchWithRetry]
  rw [fetchRetryGo_eventually_ok K 1 none 0 (by omega)
    (fun i h1 h2 => ⟨e i, hfail i h1 (by omega)⟩)
    (by rw [show 1 + K = K + 1 by omega]; exact hsucc)]
  simp only [RetryResult.mk.injEq]
  refine ⟨trivial, by omega, ?_⟩
  rw [zero_add, Finset.mul_sum, show 1 + K = K + 1 by omega,
    Nat.Ico_succ_right]

/-- Witness for C5: two transient failures then success, with 1000 ms
linear backoff, waits 1000 + 2000 = 3000 ms and succeeds on attempt 3. -/
theorem c5_linear_backoff_witness :
    fetchWithRetry transportFlaky 3 1000 =
      { outcome := Except.ok 200, attempts := 3, totalWait := 3000 } := by
  rw [c5_linear_backoff transportFlaky 200 2 3 1000 (fun _ => "ECONNRESET")
    (by decide)
    (by intro i h1 h2; interval_cases i <;> rfl) rfl]
  rw [show (∑ i ∈ Finset.Icc 1 2, 1000 * i) = 3000 from by decide]

/-! ## Lemmas about the slug split -/

lemma splitChar_ne_nil (sep : Char) (cs : List Char) :
    splitChar sep cs ≠ [] := by
  cases cs with
  | nil => simp [splitChar]
  | cons c rest =>
    rw [splitChar]
    split_ifs
    · simp
    · cases h : splitChar sep rest <;> simp

lemma splitChar_of_not_contains (sep : Char) :
    ∀ cs : List Char, cs.contains sep = false → splitChar sep cs = [cs] := by
  intro cs
  induction cs with
  | nil => intro _; rfl
  | cons c rest ih =>
    intro h
    simp only [List.contains_cons, Bool.or_eq_false_iff] at h
    have hc : ¬c = sep := by
      intro hcs
      subst hcs
      simp at h
    rw [splitChar, if_neg hc, ih (by simpa using h.2)]

lemma jsSplitSlash_of_no_slash (s : String)
    (h : s.data.contains '/' = false) : jsSplitSlash s = [s] := by
  rw [jsSplitSlash, splitChar_of_not_contains '/' s.data h]
  rfl

/-- The transformer's slug extraction agrees with the spec's
last-segment rule except when the slug contains a slash and its last
segment is empty. -/
lemma actualSlugOf_eq_specActualSlug (slug : String)
    (h : slug.data.contains '/' = false ∨ specActualSlug slug ≠ "") :
    actualSlugOf slug = specActualSlug slug := by
  by_cases hc : slug.data.contains '/'
  · have hne : specActualSlug slug ≠ "" := by
      rcases h with h | h
      · rw [hc] at h; cases h
      · exact h
    rw [actualSlugOf, if_pos hc]
    cases hl : (jsSplitSlash slug).getLast? with
    | none =>
      exfalso
      have : jsSplitSlash slug = [] := List.getLast?_eq_none_iff.1 hl
      have hnil := splitChar_ne_nil '/' slug.data
      rw [jsSplitSlash] at this
      exact hnil (List.map_eq_nil_iff.1 this)
    | some seg =>
      have hspec : specActualSlug slug = seg := by
        rw [specActualSlug, List.getLastD_eq_getLast?, hl]
        rfl
      rw [hspec]
      rw [hspec] at hne
      simp [hne]
  · have hc' : slug.data.contains '/' = false := by
      simpa using hc
    rw [actualSlugOf, if_neg (by rw [hc']; simp), specActualSlug,
      jsSplitSlash_of_no_slash slug hc']
    rfl

/-- C7 counterexample: for the slug "a/" (which contains a slash whose
last slash-separated segment is empty) the transformer does not produce
the spec's `categoryPath/lastSegment` identifier: the `|| post.slug`
fallback yields the whole slug "a/" instead of the empty last segment. -/
theorem c7_id_counterexample :
    (transformPostToEntry slashPost).id ≠ specPostId slashPost := by
  decide

/-- C7 amended: the identifier is `categoryPath/actualSlug` (just
`actualSlug` when the category path is empty) with `actualSlug` the last
slash-separated segment of the remote slug, except that when the slug
contains a slash and its last segment is empty the whole remote slug is
used instead. -/
theorem c7_id_construction (post : CMSPost)
    (h : post.slug.data.contains '/' = false ∨
      specActualSlug post.slug ≠ "") :
    (transformPostToEntry post).id = specPostId post := by
  simp only [transformPostToEntry, specPostId]
  rw [actualSlugOf_eq_specActualSlug post.slug h]

/-- Witness for C7: slug "frontend/react/hooks-intro" with category path
"frontend/react" yields identifier "frontend/react/hooks-intro", with no
duplicated prefix. -/
theorem c7_id_construction_witness :
    (transformPostToEntry hooksPost).id = "frontend/react/hooks-intro" := by
  rw [c7_id_construction hooksPost (Or.inr (by decide))]
  decide

/-- C9: the transformed data always contains an `ogImage` key: the
remote string when truthy, the boolean literal `true` when the remote
value is null or empty — the key is never pruned. -/
theorem c9_ogImage_always_present (post : CMSPost) :
    List.lookup "ogImage" (transformPostToEntry post).data =
        some (jsOgImage post.ogImage) ∧
      (∀ s, post.ogImage = some s → s ≠ "" →
        jsOgImage post.ogImage = FieldValue.str s) ∧
      (post.ogImage = none ∨ post.ogImage = some "" →
        jsOgImage post.ogImage = FieldValue.bool true) := by
  refine ⟨?_, ?_, ?_⟩
  · simp only [transformPostToEntry]
    rcases post.lastModDate with _ | d <;> rcases post.ogImage with _ | s <;>
      rcases post.minutesRead with _ | n <;>
      simp only [jsLastModDate, jsOgImage, jsMinutesRead] <;>
      (try split_ifs) <;> rfl
  · intro s hs hne
    rw [hs, jsOgImage]
    simp [hne]
  · intro h
    rcases h with h | h <;> simp [h, jsOgImage]

/-- Witness for C9: a truthy remote ogImage string is kept verbatim. -/
theorem c9_ogImage_always_present_witness :
    List.lookup "ogImage"
        (transformPostToEntry
          { basePost with ogImage := some "/og.png" }).data =
      some (FieldValue.str "/og.png") := by
  have h := c9_ogImage_always_present
    { basePost with ogImage := some "/og.png" }
  rw [h.1, h.2.1 "/og.png" rfl (by decide)]

/-- C10: a null or zero remote `minutesRead` leaves no `minutesRead` key
in the transformed data at all (falsy value mapped to undefined, then
pruned), while any nonzero reading time is kept. -/
theorem c10_minutesRead_falsy_pruned (post : CMSPost) :
    ((post.minutesRead = none ∨ post.minutesRead = some 0) →
      List.lookup "minutesRead" (transformPostToEntry post).data = none) ∧
      (∀ n, post.minutesRead = some n → n ≠ 0 →
        List.lookup "minutesRead" (transformPostToEntry post).data =
          some (FieldValue.num n)) := by
  constructor
  · intro h
    have hj : jsMinutesRead post.minutesRead = FieldValue.undef := by
      rcases h with h | h <;> simp [h, jsMinutesRead]
    simp only [transformPostToEntry, hj]
    rcases post.lastModDate with _ | d <;> rcases post.ogImage with _ | s <;>
      simp only [jsLastModDate, jsOgImage] <;> (try split_ifs) <;> rfl
  · intro n h hn
    simp only [transformPostToEntry, h, jsMinutesRead]
    rw [if_neg hn]
    rcases post.lastModDate with _ | d <;> rcases post.ogImage with _ | s <;>
      simp only [jsLastModDate, jsOgImage] <;> (try split_ifs) <;> rfl

/-- Witness for C10: a remote reading time of exactly 0 produces no
`minutesRead` key. -/
theorem c10_minutesRead_falsy_pruned_witness :
    List.lookup "minutesRead"
        (transformPostToEntry
          { basePost with minutesRead := some 0 }).data = none :=
  (c10_minutesRead_falsy_pruned
    { basePost with minutesRead := some 0 }).1 (Or.inr rfl)

/-! ## Schedule invariance of the fetch stage -/

lemma cmsFetchStage_ok_imp {env : PostsEnv} {s1 s2 : Nat → Nat}
    {batchSize : Nat} {l : List CMSPost}
    (h : cmsFetchStage env s1 batchSize = Except.ok l) :
    cmsFetchStage env s2 batchSize = Except.ok l := by
  cases hc : env.countFetch with
  | failed e => rw [cmsFetchStage, hc] at h; cases h
  | resp st body =>
    simp only [cmsFetchStage, hc] at h ⊢
    by_cases hok : isOkStatus st = true
    · rw [if_pos hok] at h ⊢
      exact runGroups_ok_imp h
    · rw [if_neg hok] at h
      cases h

/-- C8: the store produced by a load cycle depends only on the remote
data, the validator and the renderer: it is the same for any initial
store content (the store is cleared first) and for any two completion
schedules, so re-running the same cycle against an unchanged remote
dataset rebuilds the identical store. -/
theorem c8_idempotent_reload (env : PostsEnv)
    (parseData : String → Record → Except String Record)
    (render : String → Except String String) (batchSize : Nat)
    (init1 init2 : List (String × StoreEntry)) (s1 s2 : Nat → Nat) :
    (cmsLoad env init1 parseData render s1 batchSize).store =
      (cmsLoad env init2 parseData render s2 batchSize).store := by
  rw [cmsLoad, cmsLoad]
  cases h1 : cmsFetchStage env s1 batchSize with
  | error e =>
    cases h2 : cmsFetchStage env s2 batchSize with
    | error e2 => rfl
    | ok l => exact absurd (cmsFetchStage_ok_imp h2) (by rw [h1]; intro h; cases h)
  | ok l =>
    rw [@cmsFetchStage_ok_imp env s1 s2 batchSize l h1]
    rfl

/-- C6: when the fetch stage succeeds with a list in which exactly one
post fails transform/validate/render and the rest succeed, the load
commits exactly one entry per good post (N - 1 of N), logs exactly one
error naming the failing post's slug, and returns without throwing. -/
theorem c6_one_bad_item (env : PostsEnv)
    (init : List (String × StoreEntry))
    (parseData : String → Record → Except String Record)
    (render : String → Except String String) (sched : Nat → Nat)
    (batchSize : Nat) (pre suf : List CMSPost) (bad : CMSPost)
    (hfetch : cmsFetchStage env sched batchSize =
      Except.ok (pre ++ bad :: suf))
    (hpre : ∀ p ∈ pre, ∃ entry,
      processPost parseData render p = Except.ok entry)
    (hsuf : ∀ p ∈ suf, ∃ entry,
      processPost parseData render p = Except.ok entry)
    (hbad : ∀ entry, processPost parseData render bad ≠ Except.ok entry) :
    (cmsLoad env init parseData render sched batchSize).result =
        Except.ok (pre.length + suf.length) ∧
      ∃ e, (cmsLoad env init parseData render sched batchSize).errorLogs =
        ["Error processing post " ++ bad.slug ++ ": " ++ e] := by
  obtain ⟨e, he⟩ := processPost_error_shape hbad
  obtain ⟨hprelen, hpreerr⟩ := processPosts_all_ok hpre
  obtain ⟨hsuflen, hsuferr⟩ := processPosts_all_ok hsuf
  have hsplit := @processPosts_append parseData render pre (bad :: suf)
  have hcons : processPosts parseData render (bad :: suf) =
      ((processPosts parseData render suf).1,
       ("Error processing post " ++ bad.slug ++ ": " ++ e) ::
         (processPosts parseData render suf).2) := by
    rw [processPosts, he]
  rw [cmsLoad]
  rw [hfetch]
  constructor
  · simp only [hsplit, hcons, List.length_append, List.length_cons,
      hprelen, hsuflen]
  · exact ⟨e, by
      simp only [hsplit, hcons, hpreerr, hsuferr]
      rfl⟩

unseal List.merge List.mergeSort batchGroupsGo in
/-- Witness for C6: three fetched posts of which the middle one fails
schema validation commit 2 entries, log one error naming "bad-post",
and the load returns normally. -/
theorem c6_one_bad_item_witness :
    (cmsLoad wC6Env [] rejectBad renderOk revSched 200).result =
      Except.ok 2 := by
  have h := c6_one_bad_item wC6Env [] rejectBad renderOk revSched 200
    [goodPostA] [goodPostB] badPost
    (by rfl)
    (by intro p hp
        rw [List.mem_singleton] at hp
        subst hp
        exact ⟨_, rfl⟩)
    (by intro p hp
        rw [List.mem_singleton] at hp
        subst hp
        exact ⟨_, rfl⟩)
    (by intro entry hentry
        rw [show processPost rejectBad renderOk badPost =
          Except.error "Error processing post bad-post: invalid field"
          from rfl] at hentry
        cases hentry)
  exact h.1

/-! ## Lemmas about the media pagination loop -/

lemma mediaPaginateGo_failed (env : MediaEnv)
    (pd : String → Record → Except String Record) (batchSize : Nat)
    (hbs : 0 < batchSize) (total offset : Nat)
    (store : List (String × Record)) (logs : List String) (fetched : Nat)
    (e : String) (hlt : offset < total)
    (hf : env.fetchAt offset = HttpOutcome.failed e) :
    mediaPaginateGo env pd batchSize hbs total offset store logs fetched =
      { store := store, errorLogs := logs, result := Except.error e } := by
  rw [mediaPaginateGo, dif_pos hlt, hf]

lemma mediaPaginateGo_skip (env : MediaEnv)
    (pd : String → Record → Except String Record) (batchSize : Nat)
    (hbs : 0 < batchSize) (total offset : Nat)
    (store : List (String × Record)) (logs : List String) (fetched : Nat)
    (st : Nat) (page : MediaPage) (hlt : offset < total)
    (hr : env.fetchAt offset = HttpOutcome.resp st page)
    (hst : isOkStatus st = false) :
    mediaPaginateGo env pd batchSize hbs total offset store logs fetched =
      mediaPaginateGo env pd batchSize hbs total (offset + batchSize)
        store logs fetched := by
  rw [mediaPaginateGo, dif_pos hlt, hr]
  simp only [hst, Bool.false_eq_true, if_false]

lemma mediaPaginateGo_done (env : MediaEnv)
    (pd : String → Record → Except String Record) (batchSize : Nat)
    (hbs : 0 < batchSize) (total offset : Nat)
    (store : List (String × Record)) (logs : List String) (fetched : Nat)
    (h : ¬offset < total) :
    mediaPaginateGo env pd batchSize hbs total offset store logs fetched =
      { store := store, errorLogs := logs, result := Except.ok fetched } := by
  rw [mediaPaginateGo, dif_neg h]

/-- C3 corrected.  Conjuncts: (1) the posts loader's final store never
depends on the initial store content (cleared at start); (2) a posts
fetch-stage failure leaves the store empty and propagates the error;
(3) the media loader's final store never depends on the initial store
content; (4) a media initial-page transport failure leaves the store
empty; (5) a media initial-page non-2xx response leaves the store empty;
(6) but a transport failure on a later pagination page propagates the
error with the first page's commits still in the store. -/
theorem c3_store_cleared_and_fetch_failures :
    (∀ (env : PostsEnv) (init1 init2 : List (String × StoreEntry))
       (pd : String → Record → Except String Record)
       (render : String → Except String String) (sched : Nat → Nat)
       (batchSize : Nat),
      (cmsLoad env init1 pd render sched batchSize).store =
        (cmsLoad env init2 pd render sched batchSize).store) ∧
    (∀ (env : PostsEnv) (init : List (String × StoreEntry))
       (pd : String → Record → Except String Record)
       (render : String → Except String String) (sched : Nat → Nat)
       (batchSize : Nat) (e : String),
      cmsFetchStage env sched batchSize = Except.error e →
        (cmsLoad env init pd render sched batchSize).store = [] ∧
        (cmsLoad env init pd render sched batchSize).result =
          Except.error e) ∧
    (∀ (env : MediaEnv) (init1 init2 : List (String × Record))
       (pd : String → Record → Except String Record) (batchSize : Nat)
       (hbs : 0 < batchSize),
      (mediaLoad env init1 pd batchSize hbs).store =
        (mediaLoad env init2 pd batchSize hbs).store) ∧
    (∀ (env : MediaEnv) (init : List (String × Record))
       (pd : String → Record → Except String Record) (batchSize : Nat)
       (hbs : 0 < batchSize) (e : String),
      env.fetchAt 0 = HttpOutcome.failed e →
        (mediaLoad env init pd batchSize hbs).store = []) ∧
    (∀ (env : MediaEnv) (init : List (String × Record))
       (pd : String → Record → Except String Record) (batchSize : Nat)
       (hbs : 0 < batchSize) (st : Nat) (page : MediaPage),
      env.fetchAt 0 = HttpOutcome.resp st page → isOkStatus st = false →
        (mediaLoad env init pd batchSize hbs).store = []) ∧
    (∀ (env : MediaEnv) (init : List (String × Record))
       (pd : String → Record → Except String Record) (batchSize : Nat)
       (hbs : 0 < batchSize) (page1 : MediaPage) (e : String),
      env.fetchAt 0 = HttpOutcome.resp 200 page1 →
      batchSize < page1.total →
      env.fetchAt batchSize = HttpOutcome.failed e →
        (mediaLoad env init pd batchSize hbs).store =
            applyCommits [] (processMediaItems pd page1.photos).1 ∧
          (mediaLoad env init pd batchSize hbs).result =
            Except.error e) := by
  refine ⟨?_, ?_, ?_, ?_, ?_, ?_⟩
  · intro env init1 init2 pd render sched batchSize
    cases h : cmsFetchStage env sched batchSize <;>
      simp only [cmsLoad, h] <;> rfl
  · intro env init pd render sched batchSize e h
    simp only [cmsLoad, h]
    constructor <;> trivial
  · intro env init1 init2 pd batchSize hbs
    rfl
  · intro env init pd batchSize hbs e hf
    simp only [mediaLoad, mediaLoadCore, hf]
    rfl
  · intro env init pd batchSize hbs st page hr hst
    simp only [mediaLoad, mediaLoadCore, hr, hst]
    rfl
  · intro env init pd batchSize hbs page1 e h0 hlt hf2
    have hpag := mediaPaginateGo_failed env pd batchSize hbs
      page1.total batchSize
      (applyCommits (storeClear init)
        (processMediaItems pd page1.photos).1)
      (processMediaItems pd page1.photos).2
      (processMediaItems pd page1.photos).1.length
      e hlt hf2
    simp only [mediaLoad, mediaLoadCore, h0,
      show isOkStatus 200 = true from rfl, if_true, if_pos hlt, hpag]
    constructor <;> trivial

unseal mediaPaginateGo in
/-- C3 counterexample: a media load whose second pagination page's fetch
exhausts its retries throws, yet the first page's entry is already
committed: the store is not empty after a load cycle failing during
fetching. -/
theorem c3_counterexample :
    (mediaLoad mediaFailPage2Env [] acceptAll 1 Nat.one_pos).store =
        [("/img/a.jpg",
          [("id", FieldValue.str "/img/a.jpg"),
           ("desc", FieldValue.str "a")])] ∧
      (mediaLoad mediaFailPage2Env [] acceptAll 1 Nat.one_pos).result =
        Except.error "network error" :=
  ⟨rfl, rfl⟩

/-- Witness for C3: a posts load whose count probe exhausts its retries
leaves the store empty and propagates the error. -/
theorem c3_store_cleared_witness :
    (cmsLoad failPostsEnv [] acceptAll renderOk revSched 200).store =
      [] :=
  ((c3_store_cleared_and_fetch_failures).2.1 failPostsEnv [] acceptAll
    renderOk revSched 200 "ECONNREFUSED" rfl).1

/-- C4 corrected.  A received non-2xx response is surfaced immediately
as a fatal error naming the status for (1) the posts count probe,
(2) any batch of the posts batch fetch (when the other batches respond
normally, the load fails with exactly that batch's HTTP error and
commits nothing), and (3) the first page of the media loader; but
(4) a non-2xx response on a later media pagination page is silently
skipped: the load completes normally with the first page's commits and
no error. -/
theorem c4_non2xx_fatal_except_media_pagination :
    (∀ (env : PostsEnv) (init : List (String × StoreEntry))
       (pd : String → Record → Except String Record)
       (render : String → Except String String) (sched : Nat → Nat)
       (batchSize st : Nat) (page : PostsPage),
      env.countFetch = HttpOutcome.resp st page → isOkStatus st = false →
        (cmsLoad env init pd render sched batchSize).store = [] ∧
        (cmsLoad env init pd render sched batchSize).result =
          Except.error ("Failed to get post count: HTTP " ++ toString st)) ∧
    (∀ (env : PostsEnv) (init : List (String × StoreEntry))
       (pd : String → Record → Except String Record)
       (render : String → Except String String) (sched : Nat → Nat)
       (batchSize : Nat) (probe : PostsPage) (j st : Nat)
       (page : PostsPage),
      env.countFetch = HttpOutcome.resp 200 probe →
      j < cmsTotalBatches probe.total batchSize →
      env.batchFetch (j * batchSize) = HttpOutcome.resp st page →
      isOkStatus st = false →
      (∀ i, i < cmsTotalBatches probe.total batchSize → i ≠ j →
        ∃ posts, batchValue env batchSize i = Except.ok posts) →
        (cmsLoad env init pd render sched batchSize).store = [] ∧
        (cmsLoad env init pd render sched batchSize).result =
          Except.error ("HTTP " ++ toString st ++
            ": Failed to fetch posts")) ∧
    (∀ (env : MediaEnv) (init : List (String × Record))
       (pd : String → Record → Except String Record) (batchSize : Nat)
       (hbs : 0 < batchSize) (st : Nat) (page : MediaPage),
      env.fetchAt 0 = HttpOutcome.resp st page → isOkStatus st = false →
        (mediaLoad env init pd batchSize hbs).store = [] ∧
        (mediaLoad env init pd batchSize hbs).result =
          Except.error ("HTTP " ++ toString st ++
            ": Failed to fetch media from " ++
            mediaUrlAt env.apiBaseUrl batchSize 0)) ∧
    (∀ (env : MediaEnv) (init : List (String × Record))
       (pd : String → Record → Except String Record) (batchSize : Nat)
       (hbs : 0 < batchSize) (page1 : MediaPage) (st2 : Nat)
       (page2 : MediaPage),
      env.fetchAt 0 = HttpOutcome.resp 200 page1 →
      batchSize < page1.total → page1.total ≤ batchSize + batchSize →
      env.fetchAt batchSize = HttpOutcome.resp st2 page2 →
      isOkStatus st2 = false →
        (mediaLoad env init pd batchSize hbs).result =
            Except.ok (processMediaItems pd page1.photos).1.length ∧
          (mediaLoad env init pd batchSize hbs).store =
            applyCommits [] (processMediaItems pd page1.photos).1 ∧
          (mediaLoad env init pd batchSize hbs).errorLogs =
            (processMediaItems pd page1.photos).2) := by
  refine ⟨?_, ?_, ?_, ?_⟩
  · intro env init pd render sched batchSize st page hc hst
    have hstage : cmsFetchStage env sched batchSize = Except.error
        ("Failed to get post count: HTTP " ++ toString st) := by
      simp only [cmsFetchStage, hc, hst, Bool.false_eq_true, if_false]
    simp only [cmsLoad, hstage]
    constructor <;> trivial
  · intro env init pd render sched batchSize probe j st page hc hj hbad
      hst hothers
    have hstage : cmsFetchStage env sched batchSize = Except.error
        ("HTTP " ++ toString st ++ ": Failed to fetch posts") := by
      simp only [cmsFetchStage, hc, show isOkStatus 200 = true from rfl,
        if_true]
      refine runGroups_single_error (j := j) ?_ ?_ ?_
      · rw [batchGroups_flatten]
        exact List.mem_range.2 hj
      · simp only [batchValue, hbad, hst, Bool.false_eq_true, if_false]
      · intro i hi hne
        rw [batchGroups_flatten] at hi
        exact hothers i (List.mem_range.1 hi) hne
    simp only [cmsLoad, hstage]
    constructor <;> trivial
  · intro env init pd batchSize hbs st page hr hst
    simp only [mediaLoad, mediaLoadCore, hr, hst, Bool.false_eq_true,
      if_false]
    constructor <;> trivial
  · intro env init pd batchSize hbs page1 st2 page2 h0 hlt hle h2 hst2
    have hskip := mediaPaginateGo_skip env pd batchSize hbs
      page1.total batchSize
      (applyCommits (storeClear init)
        (processMediaItems pd page1.photos).1)
      (processMediaItems pd page1.photos).2
      (processMediaItems pd page1.photos).1.length
      st2 page2 hlt h2 hst2
    have hdone := mediaPaginateGo_done env pd batchSize hbs
      page1.total (batchSize + batchSize)
      (applyCommits (storeClear init)
        (processMediaItems pd page1.photos).1)
      (processMediaItems pd page1.photos).2
      (processMediaItems pd page1.photos).1.length
      (by omega)
    simp only [mediaLoad, mediaLoadCore, h0,
      show isOkStatus 200 = true from rfl, if_true, if_pos hlt, hskip,
      hdone]
    refine ⟨?_, ?_, ?_⟩ <;> trivial

unseal mediaPaginateGo in
/-- C4 counterexample: a media load whose second pagination page comes
back as HTTP 500 completes normally (no fatal error, no status code
surfaced) and the first page's item is committed, contradicting the
claim that every non-2xx response aborts the fetch stage with no items
committed. -/
theorem c4_counterexample :
    (mediaLoad media500Page2Env [] acceptAll 1 Nat.one_pos).result =
        Except.ok 1 ∧
      (mediaLoad media500Page2Env [] acceptAll 1 Nat.one_pos).store =
        [("/img/a.jpg",
          [("id", FieldValue.str "/img/a.jpg"),
           ("desc", FieldValue.str "a")])] ∧
      (mediaLoad media500Page2Env [] acceptAll 1 Nat.one_pos).errorLogs =
        [] :=
  ⟨rfl, rfl, rfl⟩

/-- Witness for C4: a posts count probe answered with HTTP 500 fails the
load with an error naming the status and leaves the store empty. -/
theorem c4_non2xx_fatal_witness :
    (cmsLoad probe500Env [] acceptAll renderOk revSched 200).result =
      Except.error "Failed to get post count: HTTP 500" := by
  have h := (c4_non2xx_fatal_except_media_pagination).1 probe500Env []
    acceptAll renderOk revSched 200 500
    { posts := [], total := 0 } rfl rfl
  rw [h.2]
  rfl

end Blog
